import Mathlib

/-!
Shallow embedding of the event-driven simulation engine (`EventSimulation`,
`createSimulation`, `createAgent` and the per-agent `Context`) of the
repository, together with theorems settling the specification claims.

Modelling conventions:

* The engine's mutable instance fields (`globalState`, `agentInternalStates`,
  `actionQueue`, `isProcessing`, `actionCount`, `hasExited`, the exit promise)
  form the record `SimState`; the fields fixed at construction (the ordered
  agent `Map` and `shouldExit`) form the record `EventSimulation`.
* JavaScript `Map` objects are association lists; `Map.set` replaces the value
  in place when the key is present (keeping insertion order) and appends
  otherwise; `Map.get` is an `Option`-returning lookup.
* An agent handler is modelled in its synchronous form: invoking
  `agent.onAction(action, context)` runs the handler body synchronously, and
  since the `Context` passed to it exposes only snapshot fields plus the three
  engine callbacks, the handler is a pure function of `(action, context)`
  returning the ordered list of callback invocations (`Cmd`s) it performs,
  paired with a `Bool` saying whether it then throws.  The engine executes the
  commands against its live state, exactly as the closures built by
  `createContext` do.
* A `shouldExit` predicate that may throw is an `Except Unit Bool`.
* The `await setTimeout(0)` yield between loop iterations only gives
  externally scheduled callbacks a chance to run; the model is closed (no
  external callbacks), so the yield is the identity and is not represented.
* The drain loop is a fueled recursion (`Outcome.fuelExhausted` when fuel runs
  out); every claim is settled either with ample concrete fuel or with
  statements that hold for every fuel.
* `SimState` carries two ghost fields used only for observation, never read by
  the engine: `dispatchCalls` counts every entry into the top-level `dispatch`
  or a context's `dispatch`, and `trace` logs drain-loop starts, handler
  invocations (with the exact `Context` snapshot handed to the handler), and
  the completion of each action's join-barrier (the instant after
  `await Promise.all` succeeds, where `actionCount` is incremented).
* The resolution state of the promise returned by `exit()` is the Boolean
  ghost-observable `exitResolved`, set exactly where the source calls
  `this.resolveExit()`.
-/

namespace Simullm

/-- One entry of the `allAgents` list exposed on a context:
`{ id, internalState: this.agentInternalStates.get(id) }`. -/
structure AgentSnapshot (I : Type) where
  id : String
  internalState : Option I
  deriving DecidableEq

/-- The snapshot part of the per-agent `Context` built by `createContext`:
`globalState`, the agent's own `internalState`, and the `allAgents` list, all
read from the engine at the moment the context object is created.  The three
function-valued fields of the source context (`dispatch`, `updateGlobalState`,
`updateInternalState`) are modelled by `Cmd` below. -/
structure Context (G I : Type) where
  globalState : G
  internalState : Option I
  allAgents : List (AgentSnapshot I)
  deriving DecidableEq

/-- A call a handler makes on one of the three function-valued fields of its
`Context`.  The updater passed to `updateInternalState` receives
`agentInternalStates.get(agentId)` (possibly `undefined`) and its result is
stored back, hence `Option I → Option I`. -/
inductive Cmd (G A I : Type) where
  | dispatch (action : A)
  | updateGlobalState (updater : G → G)
  | updateInternalState (updater : Option I → Option I)

/-- An agent definition: `id`, the `onAction` handler in its synchronous
functional form (ordered `Cmd` list plus whether the handler then throws), and
the optional initial internal state. -/
structure Agent (G A I : Type) where
  id : String
  onAction : A → Context G I → List (Cmd G A I) × Bool
  initialInternalState : Option I

/-- Mirror of the source helper `createAgent(id, onAction, initialInternalState?)`. -/
def createAgent (id : String) (onAction : A → Context G I → List (Cmd G A I) × Bool)
    (initialInternalState : Option I) : Agent G A I :=
  { id := id, onAction := onAction, initialInternalState := initialInternalState }

/-- The `ExitContext` object handed to `shouldExit`. -/
structure ExitContext (G A I : Type) where
  globalState : G
  agentStates : List (String × Option I)
  lastAction : A
  actionCount : Nat

/-- `SimulationConfig`: initial global state, the ordered agent list, and the
exit predicate (which may throw, hence `Except`). -/
structure SimulationConfig (G A I : Type) where
  initialGlobalState : G
  agents : List (Agent G A I)
  shouldExit : ExitContext G A I → Except Unit Bool

/-- The construction-time-fixed part of an `EventSimulation` instance: the
agent `Map` (association list in insertion order) and `shouldExit`. -/
structure EventSimulation (G A I : Type) where
  agents : List (String × Agent G A I)
  shouldExit : ExitContext G A I → Except Unit Bool

/-- Ghost trace events: a drain-loop activation (`processActionQueue` entered),
a handler invocation together with the exact context snapshot it received, and
the completion of an action's join-barrier (`await Promise.all` succeeded). -/
inductive Event (G A I : Type) where
  | drainStart
  | invoke (agentId : String) (action : A) (ctx : Context G I)
  | actionProcessed (action : A)
  deriving DecidableEq

/-- How a call into the engine returns to its caller: normally, by re-raising
an agent handler's exception, by re-raising a `shouldExit` exception, or —
a modelling artifact — because the recursion fuel ran out. -/
inductive Outcome where
  | ok
  | handlerError
  | exitPredError
  | fuelExhausted
  deriving DecidableEq

/-- Result of fanning one action out to the agent list. -/
inductive FanResult where
  | settled
  | threw
  | fuel
  deriving DecidableEq

/-- The mutable state of an `EventSimulation` instance, plus the two ghost
fields `dispatchCalls` and `trace` (see the file header). -/
structure SimState (G A I : Type) where
  globalState : G
  agentInternalStates : List (String × Option I)
  actionQueue : List A
  isProcessing : Bool
  actionCount : Nat
  hasExited : Bool
  exitResolved : Bool
  dispatchCalls : Nat
  trace : List (Event G A I)
  deriving DecidableEq

variable {G A I : Type}

/-- JavaScript `Map.set`: replace in place if the key is present (keeping the
original position), append otherwise. -/
def mapSet : List (String × β) → String → β → List (String × β)
  | [], k, v => [(k, v)]
  | (k', v') :: rest, k, v =>
    if k' = k then (k, v) :: rest else (k', v') :: mapSet rest k v

/-- JavaScript `Map.get`: `Option`-returning lookup. -/
def mget : List (String × β) → String → Option β
  | [], _ => none
  | (k', v) :: rest, k => if k' = k then some v else mget rest k

/-- `agentInternalStates.get(id)`: a missing key and a stored `undefined` are
both `undefined` to the reader. -/
def getInternal (m : List (String × Option I)) (k : String) : Option I :=
  match mget m k with
  | none => none
  | some v => v

/-- `createSimulation(config)` / the `EventSimulation` constructor: register
each agent by id into the `Map`, seed its internal state when
`initialInternalState !== undefined`, and initialise the mutable state. -/
def createSimulation (cfg : SimulationConfig G A I) :
    EventSimulation G A I × SimState G A I :=
  ({ agents := cfg.agents.foldl (fun m g => mapSet m g.id g) [],
     shouldExit := cfg.shouldExit },
   { globalState := cfg.initialGlobalState,
     agentInternalStates := cfg.agents.foldl
       (fun m g =>
         match g.initialInternalState with
         | some v => mapSet m g.id (some v)
         | none => m) [],
     actionQueue := [],
     isProcessing := false,
     actionCount := 0,
     hasExited := false,
     exitResolved := false,
     dispatchCalls := 0,
     trace := [] })

/-- The snapshot part of `createContext(agentId)`: `globalState`,
`internalState` and `allAgents` are read from the live engine state at the
moment the context object is built. -/
def createContext (sim : EventSimulation G A I) (s : SimState G A I)
    (agentId : String) : Context G I :=
  { globalState := s.globalState,
    internalState := getInternal s.agentInternalStates agentId,
    allAgents := sim.agents.map fun e =>
      { id := e.1, internalState := getInternal s.agentInternalStates e.1 } }

/-- `getAllAgentStates()`: one `(agentId, internalState)` pair per registered
agent, in `Map` iteration order. -/
def getAllAgentStates (sim : EventSimulation G A I) (s : SimState G A I) :
    List (String × Option I) :=
  sim.agents.map fun e => (e.1, getInternal s.agentInternalStates e.1)

/-- The `ExitContext` built after an action's join-barrier, with the already
incremented `actionCount`. -/
def mkExitContext (sim : EventSimulation G A I) (s : SimState G A I) (a : A) :
    ExitContext G A I :=
  { globalState := s.globalState,
    agentStates := getAllAgentStates sim s,
    lastAction := a,
    actionCount := s.actionCount }

/-- The five engine operations at one recursion depth.  The source's mutually
recursive methods are modelled as a fuel-indexed family (`engineFuns`): the
operations at depth `f + 1` perform one step of the source code and delegate
every nested call to the operations at depth `f`. -/
structure Funs (G A I : Type) where
  execCmds : String → List (Cmd G A I) → SimState G A I → SimState G A I
  fanOut : List (String × Agent G A I) → A → SimState G A I →
    SimState G A I × FanResult
  drainLoop : SimState G A I → SimState G A I × Outcome
  processActionQueue : SimState G A I → SimState G A I × Outcome
  ctxDispatch : A → SimState G A I → SimState G A I

/-- Out-of-fuel behaviour: every operation stops where it is (a modelling
artifact, reported as `fuelExhausted` where an outcome is returned; claims are
settled with ample fuel or for every fuel). -/
def zeroFuns : Funs G A I :=
  { execCmds := fun _ _ s => s,
    fanOut := fun entries _ s =>
      match entries with
      | [] => (s, FanResult.settled)
      | _ :: _ => (s, FanResult.fuel),
    drainLoop := fun s => (s, Outcome.fuelExhausted),
    processActionQueue := fun s =>
      ({ s with isProcessing := true, trace := s.trace ++ [Event.drainStart] },
       Outcome.fuelExhausted),
    ctxDispatch := fun a s =>
      { s with dispatchCalls := s.dispatchCalls + 1,
               actionQueue := s.actionQueue ++ [a] } }

/-- One layer of the engine, delegating nested calls to `prev`.

* `execCmds` executes, against the live engine state, the ordered `Cmd` calls
  one handler makes on its context; `Cmd.dispatch` is the context closure
  `(action) => { queue.push(action); if (!isProcessing) processActionQueue(); }`,
  and the two updaters replace the corresponding state with the transform of
  its live value.
* `fanOut` is the per-action loop
  `for (const [agentId, agent] of this.agents) { const context = this.createContext(agentId); promises.push(Promise.resolve(agent.onAction(action, context))); }`
  followed by `await Promise.all(promises)`: each agent's context is created
  and its handler body run synchronously, in registration order; a synchronous
  throw propagates at once, before later agents are reached.
* `drainLoop` is the `while (this.actionQueue.length > 0)` body of
  `processActionQueue`: shift the front action, fan it out, after the
  join-barrier increment `actionCount` and evaluate `shouldExit`; on exit
  clear the queue, set `hasExited`, resolve the exit promise and stop (the
  trailing `isProcessing = false` of the method runs on every non-throwing
  return).  Errors from a handler or from `shouldExit` propagate without
  resetting `isProcessing`.
* `processActionQueue` sets `isProcessing = true` (ghost: logs the loop
  activation) and drains.
* `ctxDispatch` is the context's `dispatch` closure: push the action and
  start the drain loop when none is running.  It checks `hasExited` nowhere,
  and the started drain is not awaited, so its outcome is invisible to the
  caller (only the state changes). -/
def mkFuns (sim : EventSimulation G A I) (prev : Funs G A I) : Funs G A I :=
  { execCmds := fun agentId cs s =>
      match cs with
      | [] => s
      | Cmd.dispatch a :: cs => prev.execCmds agentId cs (prev.ctxDispatch a s)
      | Cmd.updateGlobalState u :: cs =>
        prev.execCmds agentId cs { s with globalState := u s.globalState }
      | Cmd.updateInternalState u :: cs =>
        let cur := getInternal s.agentInternalStates agentId
        prev.execCmds agentId cs
          { s with agentInternalStates := mapSet s.agentInternalStates agentId (u cur) },
    fanOut := fun entries a s =>
      match entries with
      | [] => (s, FanResult.settled)
      | (agentId, agent) :: rest =>
        let ctx := createContext sim s agentId
        let s0 := { s with trace := s.trace ++ [Event.invoke agentId a ctx] }
        let hr := agent.onAction a ctx
        let s1 := prev.execCmds agentId hr.1 s0
        if hr.2 then (s1, FanResult.threw) else prev.fanOut rest a s1,
    drainLoop := fun s =>
      match s.actionQueue with
      | [] => ({ s with isProcessing := false }, Outcome.ok)
      | a :: rest =>
        let s1 := { s with actionQueue := rest }
        match prev.fanOut sim.agents a s1 with
        | (s2, FanResult.fuel) => (s2, Outcome.fuelExhausted)
        | (s2, FanResult.threw) => (s2, Outcome.handlerError)
        | (s2, FanResult.settled) =>
          let s3 := { s2 with actionCount := s2.actionCount + 1,
                              trace := s2.trace ++ [Event.actionProcessed a] }
          match sim.shouldExit (mkExitContext sim s3 a) with
          | Except.error _ => (s3, Outcome.exitPredError)
          | Except.ok true =>
            ({ s3 with actionQueue := [], hasExited := true,
                       exitResolved := true, isProcessing := false },
             Outcome.ok)
          | Except.ok false => prev.drainLoop s3,
    processActionQueue := fun s =>
      prev.drainLoop
        { s with isProcessing := true, trace := s.trace ++ [Event.drainStart] },
    ctxDispatch := fun a s =>
      let s1 := { s with dispatchCalls := s.dispatchCalls + 1,
                         actionQueue := s.actionQueue ++ [a] }
      if s1.isProcessing then s1 else (prev.processActionQueue s1).1 }

/-- The engine operations at every fuel, built by plain recursion on the
fuel. -/
def engineFuns (sim : EventSimulation G A I) : Nat → Funs G A I :=
  fun f => Nat.rec zeroFuns (fun _ prev => mkFuns sim prev) f

/-- Execute a handler's context calls (see `mkFuns`). -/
def execCmds (sim : EventSimulation G A I) (f : Nat) (agentId : String)
    (cs : List (Cmd G A I)) (s : SimState G A I) : SimState G A I :=
  (engineFuns sim f).execCmds agentId cs s

/-- Fan one action out to the agents (see `mkFuns`). -/
def fanOut (sim : EventSimulation G A I) (f : Nat)
    (entries : List (String × Agent G A I)) (a : A) (s : SimState G A I) :
    SimState G A I × FanResult :=
  (engineFuns sim f).fanOut entries a s

/-- The drain loop body of `processActionQueue` (see `mkFuns`). -/
def drainLoop (sim : EventSimulation G A I) (f : Nat) (s : SimState G A I) :
    SimState G A I × Outcome :=
  (engineFuns sim f).drainLoop s

/-- `processActionQueue()` (see `mkFuns`). -/
def processActionQueue (sim : EventSimulation G A I) (f : Nat)
    (s : SimState G A I) : SimState G A I × Outcome :=
  (engineFuns sim f).processActionQueue s

/-- The context's `dispatch` closure (see `mkFuns`). -/
def ctxDispatch (sim : EventSimulation G A I) (f : Nat) (a : A)
    (s : SimState G A I) : SimState G A I :=
  (engineFuns sim f).ctxDispatch a s

/-- The top-level `dispatch(action)`: drop the action when `hasExited`,
otherwise push it and, when no drain loop is running, run (and await) the
drain — whose exception, if any, is re-raised to this caller. -/
def dispatch (sim : EventSimulation G A I) (f : Nat) (a : A)
    (s : SimState G A I) : SimState G A I × Outcome :=
  if s.hasExited then
    ({ s with dispatchCalls := s.dispatchCalls + 1 }, Outcome.ok)
  else
    let s1 := { s with dispatchCalls := s.dispatchCalls + 1,
                       actionQueue := s.actionQueue ++ [a] }
    if s1.isProcessing then (s1, Outcome.ok)
    else
      match f with
      | 0 => (s1, Outcome.fuelExhausted)
      | f + 1 => processActionQueue sim f s1

/-- `getGlobalState()`. -/
def getGlobalState (s : SimState G A I) : G := s.globalState

/-- `getAgentInternalState(agentId)`. -/
def getAgentInternalState (s : SimState G A I) (agentId : String) : Option I :=
  getInternal s.agentInternalStates agentId

/-- `getActionCount()`. -/
def getActionCount (s : SimState G A I) : Nat := s.actionCount

/-- `hasSimulationExited()`. -/
def hasSimulationExited (s : SimState G A I) : Bool := s.hasExited

/-- Observable trace entry with the context snapshot erased: a handler
invocation `(agentId, action)` or a completed join-barrier for `action`. -/
inductive ObsE (A : Type) where
  | inv (agentId : String) (action : A)
  | done (action : A)
  deriving DecidableEq

/-- Projection of the ghost trace to its observable invocation / join-barrier
sequence. -/
def obsOf : List (Event G A I) → List (ObsE A) :=
  List.filterMap fun e =>
    match e with
    | Event.invoke agentId a _ => some (ObsE.inv agentId a)
    | Event.actionProcessed a => some (ObsE.done a)
    | Event.drainStart => none

/-- The observable shape of a drain that processes `acts` in order: for each
action, one invocation per registered agent in registration order, then the
join-barrier completion. -/
def expectedObs (sim : EventSimulation G A I) (acts : List A) : List (ObsE A) :=
  acts.flatMap fun a => (sim.agents.map fun e => ObsE.inv e.1 a) ++ [ObsE.done a]

/-- The sequence of actions a given agent's handler received, in invocation
order. -/
def seenBy (t : List (Event G A I)) (agentId : String) : List A :=
  t.filterMap fun e =>
    match e with
    | Event.invoke k a _ => if k = agentId then some a else none
    | _ => none

/-- The `allAgents` lists handed out to handlers, in invocation order. -/
def allAgentsSeen (t : List (Event G A I)) : List (List (AgentSnapshot I)) :=
  t.filterMap fun e =>
    match e with
    | Event.invoke _ _ ctx => some ctx.allAgents
    | _ => none

/-- Number of drain-loop activations recorded in the trace. -/
def drainStartCount (t : List (Event G A I)) : Nat :=
  (t.filter fun e =>
    match e with
    | Event.drainStart => true
    | _ => false).length

/-- The actions whose join-barrier completed, in completion order. -/
def processedOf (t : List (Event G A I)) : List A :=
  t.filterMap fun e =>
    match e with
    | Event.actionProcessed a => some a
    | _ => none

/-- Queue-accounting invariant with explicit slack: processed plus pending
actions (plus `n`) never exceed the dispatch calls made so far. -/
def KSlack (n : Nat) (s : SimState G A I) : Prop :=
  s.actionCount + s.actionQueue.length + n ≤ s.dispatchCalls

/-- `actionCount` agrees with the number of completed join-barriers in the
trace. -/
def TInv (s : SimState G A I) : Prop :=
  s.actionCount = (processedOf s.trace).length

/-- One-step evolution facts: `hasExited` is never unset and `actionCount`
never decreases. -/
def Evol (s t : SimState G A I) : Prop :=
  (s.hasExited = true → t.hasExited = true) ∧ s.actionCount ≤ t.actionCount

/-- Bundle of preservation facts carried through the engine's recursion. -/
def Good (s t : SimState G A I) : Prop :=
  Evol s t ∧ (∀ n, KSlack n s → KSlack n t) ∧ (TInv s → TInv t)

/-- An externally observable engine operation: a top-level `dispatch` call or
a context `dispatch` call (e.g. from a timer callback), with its fuel. -/
inductive Op (A : Type) where
  | disp (f : Nat) (a : A)
  | cdisp (f : Nat) (a : A)

/-- Apply a sequence of external operations to a state. -/
def applyOps (sim : EventSimulation G A I) :
    List (Op A) → SimState G A I → SimState G A I
  | [], s => s
  | Op.disp f a :: rest, s => applyOps sim rest (dispatch sim f a s).1
  | Op.cdisp f a :: rest, s => applyOps sim rest (ctxDispatch sim f a s)

/-- States reachable from construction by any sequence of top-level and
context dispatch calls. -/
inductive Reachable (cfg : SimulationConfig G A I) : SimState G A I → Prop where
  | init : Reachable cfg (createSimulation cfg).2
  | stepDispatch (f : Nat) (a : A) {s : SimState G A I} :
      Reachable cfg s →
      Reachable cfg (dispatch (createSimulation cfg).1 f a s).1
  | stepCtxDispatch (f : Nat) (a : A) {s : SimState G A I} :
      Reachable cfg s →
      Reachable cfg (ctxDispatch (createSimulation cfg).1 f a s)

/-! ### Concrete scenario instances

Each claim gets its own scenario definitions so the developments stay
independent of each other. -/

/-- C1 scenario: agent `a` synchronously replaces its internal state by `1`
on every action; agent `b` does nothing; both start at internal state `0`. -/
def c1cfg : SimulationConfig Nat Nat Nat :=
  { initialGlobalState := 0,
    agents :=
      [createAgent "a"
        (fun _ _ => ([Cmd.updateInternalState fun _ => some 1], false)) (some 0),
       createAgent "b" (fun _ _ => ([], false)) (some 0)],
    shouldExit := fun _ => Except.ok false }

/-- C1 scenario run: one action dispatched. -/
def c1run : SimState Nat Nat Nat × Outcome :=
  dispatch (createSimulation c1cfg).1 10 0 (createSimulation c1cfg).2

/-- C2 scenario: one agent adding `amount` to the global state; the run exits
after the first processed action. -/
def c2cfg : SimulationConfig Int Int Unit :=
  { initialGlobalState := 0,
    agents := [createAgent "inc"
      (fun amt _ => ([Cmd.updateGlobalState fun g => g + amt], false)) none],
    shouldExit := fun ec => Except.ok (decide (ec.actionCount >= 1)) }

/-- C2 registry. -/
def c2sim : EventSimulation Int Int Unit := (createSimulation c2cfg).1

/-- C2: the exited state reached by dispatching one action. -/
def c2exited : SimState Int Int Unit :=
  (dispatch c2sim 10 5 (createSimulation c2cfg).2).1

/-- C3 scenario: agent `a` settles normally, agent `b` throws synchronously,
agent `c` would settle but is registered after `b`. -/
def c3cfg : SimulationConfig Int Int Unit :=
  { initialGlobalState := 0,
    agents :=
      [createAgent "a" (fun _ _ => ([], false)) none,
       createAgent "b" (fun _ _ => ([], true)) none,
       createAgent "c" (fun _ _ => ([], false)) none],
    shouldExit := fun _ => Except.ok false }

/-- C3 registry. -/
def c3sim : EventSimulation Int Int Unit := (createSimulation c3cfg).1

/-- C3 run: one action dispatched into the three-agent scenario. -/
def c3run : SimState Int Int Unit × Outcome :=
  dispatch c3sim 10 0 (createSimulation c3cfg).2

/-- C3: a mid-drain state right before fanning an action out. -/
def c3fanState : SimState Int Int Unit :=
  { globalState := 0,
    agentInternalStates := [],
    actionQueue := [],
    isProcessing := true,
    actionCount := 0,
    hasExited := false,
    exitResolved := false,
    dispatchCalls := 1,
    trace := [Event.drainStart] }

/-- C4 scenario: global state `0`, one agent adding `amount` on `INCREMENT`
(the action's payload), `shouldExit` once `actionCount >= 2`. -/
def c4cfg : SimulationConfig Int Int Unit :=
  { initialGlobalState := 0,
    agents := [createAgent "counter"
      (fun amt _ => ([Cmd.updateGlobalState fun g => g + amt], false)) none],
    shouldExit := fun ec => Except.ok (decide (ec.actionCount >= 2)) }

/-- C4 registry. -/
def c4sim : EventSimulation Int Int Unit := (createSimulation c4cfg).1

/-- C4: state after `dispatch {INCREMENT, amount: 5}`. -/
def c4s1 : SimState Int Int Unit :=
  (dispatch c4sim 10 5 (createSimulation c4cfg).2).1

/-- C4: state after the further `dispatch {INCREMENT, amount: 8}`. -/
def c4s2 : SimState Int Int Unit := (dispatch c4sim 10 8 c4s1).1

/-- C4: state after the further `dispatch {INCREMENT, amount: 1}`. -/
def c4s3 : SimState Int Int Unit := (dispatch c4sim 10 1 c4s2).1

/-- The C5 action vocabulary. -/
inductive TAct where
  | START
  | INCREMENT (amount : Int)
  | DOUBLE
  deriving DecidableEq

/-- C5 scenario: A dispatches `INCREMENT` on `START`; B dispatches `DOUBLE`
and adds `amount` on `INCREMENT`; C doubles the global state on `DOUBLE`. -/
def c5cfg : SimulationConfig Int TAct Unit :=
  { initialGlobalState := 0,
    agents :=
      [createAgent "A"
        (fun a _ =>
          match a with
          | TAct.START => ([Cmd.dispatch (TAct.INCREMENT 1)], false)
          | _ => ([], false)) none,
       createAgent "B"
        (fun a _ =>
          match a with
          | TAct.INCREMENT amt =>
            ([Cmd.dispatch TAct.DOUBLE, Cmd.updateGlobalState fun g => g + amt],
             false)
          | _ => ([], false)) none,
       createAgent "C"
        (fun a _ =>
          match a with
          | TAct.DOUBLE => ([Cmd.updateGlobalState fun g => g * 2], false)
          | _ => ([], false)) none],
    shouldExit := fun _ => Except.ok false }

/-- C5 run: a single `START` dispatched. -/
def c5run : SimState Int TAct Unit × Outcome :=
  dispatch (createSimulation c5cfg).1 20 TAct.START (createSimulation c5cfg).2

/-- C5 registry. -/
def c5sim : EventSimulation Int TAct Unit := (createSimulation c5cfg).1

/-- The context snapshot every C5 agent receives (none of them has internal
state), at a given global-state value. -/
def c5ctx (g : Int) : Context Int Unit :=
  { globalState := g,
    internalState := none,
    allAgents := [⟨"A", none⟩, ⟨"B", none⟩, ⟨"C", none⟩] }

/-- C5 ghost trace after processing `START`. -/
def c5trace1 : List (Event Int TAct Unit) :=
  [Event.drainStart,
   Event.invoke "A" TAct.START (c5ctx 0),
   Event.invoke "B" TAct.START (c5ctx 0),
   Event.invoke "C" TAct.START (c5ctx 0),
   Event.actionProcessed TAct.START]

/-- C5 ghost trace after additionally processing `INCREMENT 1`. -/
def c5trace2 : List (Event Int TAct Unit) :=
  c5trace1 ++
  [Event.invoke "A" (TAct.INCREMENT 1) (c5ctx 0),
   Event.invoke "B" (TAct.INCREMENT 1) (c5ctx 0),
   Event.invoke "C" (TAct.INCREMENT 1) (c5ctx 1),
   Event.actionProcessed (TAct.INCREMENT 1)]

/-- C5 ghost trace after additionally processing `DOUBLE`. -/
def c5trace3 : List (Event Int TAct Unit) :=
  c5trace2 ++
  [Event.invoke "A" TAct.DOUBLE (c5ctx 1),
   Event.invoke "B" TAct.DOUBLE (c5ctx 1),
   Event.invoke "C" TAct.DOUBLE (c5ctx 1),
   Event.actionProcessed TAct.DOUBLE]

/-- C5 drain entry state: `START` pushed, loop marked active. -/
def c5m0 : SimState Int TAct Unit :=
  { globalState := 0,
    agentInternalStates := [],
    actionQueue := [TAct.START],
    isProcessing := true,
    actionCount := 0,
    hasExited := false,
    exitResolved := false,
    dispatchCalls := 1,
    trace := [Event.drainStart] }

/-- C5 state after the first loop iteration (`START` processed; `A`'s
handler enqueued `INCREMENT 1`). -/
def c5t1 : SimState Int TAct Unit :=
  { globalState := 0,
    agentInternalStates := [],
    actionQueue := [TAct.INCREMENT 1],
    isProcessing := true,
    actionCount := 1,
    hasExited := false,
    exitResolved := false,
    dispatchCalls := 2,
    trace := c5trace1 }

/-- C5 state after the second iteration (`INCREMENT 1` processed; `B`
enqueued `DOUBLE` and added `1`). -/
def c5t2 : SimState Int TAct Unit :=
  { globalState := 1,
    agentInternalStates := [],
    actionQueue := [TAct.DOUBLE],
    isProcessing := true,
    actionCount := 2,
    hasExited := false,
    exitResolved := false,
    dispatchCalls := 3,
    trace := c5trace2 }

/-- C5 state after the third iteration (`DOUBLE` processed; `C` doubled the
global state). -/
def c5t3 : SimState Int TAct Unit :=
  { globalState := 2,
    agentInternalStates := [],
    actionQueue := [],
    isProcessing := true,
    actionCount := 3,
    hasExited := false,
    exitResolved := false,
    dispatchCalls := 3,
    trace := c5trace3 }

/-- C6 witness scenario: a single accumulating agent, never exiting. -/
def c6cfg : SimulationConfig Int Int Unit :=
  { initialGlobalState := 0,
    agents := [createAgent "acc"
      (fun amt _ => ([Cmd.updateGlobalState fun g => g + amt], false)) none],
    shouldExit := fun _ => Except.ok false }

/-- C7 scenario: the agent enqueues a follow-up action `7` when handling
action `100`; `shouldExit` throws as soon as `actionCount >= 1`. -/
def c7cfg : SimulationConfig Int Int Unit :=
  { initialGlobalState := 0,
    agents := [createAgent "casc"
      (fun a _ => if a = 100 then ([Cmd.dispatch 7], false) else ([], false))
      none],
    shouldExit := fun ec =>
      if ec.actionCount >= 1 then Except.error () else Except.ok false }

/-- C7 registry. -/
def c7sim : EventSimulation Int Int Unit := (createSimulation c7cfg).1

/-- C7 run: dispatch action `100`; processing it enqueues `7` and then
`shouldExit` throws. -/
def c7run : SimState Int Int Unit × Outcome :=
  dispatch c7sim 10 100 (createSimulation c7cfg).2

/-- C7: the state just after `dispatch 100` pushed its action, as handed to
`processActionQueue`. -/
def c7queued : SimState Int Int Unit :=
  { (createSimulation c7cfg).2 with dispatchCalls := 1, actionQueue := [100] }

/-- C8 witness scenario: two observing agents, never exiting. -/
def c8cfg : SimulationConfig Int Int Unit :=
  { initialGlobalState := 0,
    agents :=
      [createAgent "x" (fun _ _ => ([], false)) none,
       createAgent "y" (fun _ _ => ([], false)) none],
    shouldExit := fun _ => Except.ok false }

/-- C8 registry. -/
def c8sim : EventSimulation Int Int Unit := (createSimulation c8cfg).1

/-- C9 witness scenario: a mid-drain state (`isProcessing = true`) of an
agentless engine with one pending action and two dispatch calls recorded. -/
def c9state : SimState Int Int Unit :=
  { globalState := 3,
    agentInternalStates := [],
    actionQueue := [11],
    isProcessing := true,
    actionCount := 1,
    hasExited := false,
    exitResolved := false,
    dispatchCalls := 2,
    trace := [Event.drainStart] }

/-- C9 witness registry. -/
def c9sim : EventSimulation Int Int Unit :=
  { agents := [], shouldExit := fun _ => Except.ok false }

/-- C10 scenario: `shouldExit` always throws. -/
def c10cfg : SimulationConfig Int Int Unit :=
  { initialGlobalState := 0,
    agents := [createAgent "noop" (fun _ _ => ([], false)) none],
    shouldExit := fun _ => Except.error () }

/-- C10 registry. -/
def c10sim : EventSimulation Int Int Unit := (createSimulation c10cfg).1

/-- C10 run: the first dispatch, whose processing step hits the throwing
`shouldExit` and leaves `isProcessing` stuck at `true`. -/
def c10run : SimState Int Int Unit × Outcome :=
  dispatch c10sim 10 0 (createSimulation c10cfg).2

/-- C10: the state just after `dispatch 0` pushed its action, as handed to
`processActionQueue`. -/
def c10queued : SimState Int Int Unit :=
  { (createSimulation c10cfg).2 with dispatchCalls := 1, actionQueue := [0] }

/-! ### Supporting lemmas -/

theorem execCmds_zero (sim : EventSimulation G A I) (agentId : String)
    (cs : List (Cmd G A I)) (s : SimState G A I) :
    execCmds sim 0 agentId cs s = s := rfl

theorem execCmds_nil (sim : EventSimulation G A I) (f : Nat) (agentId : String)
    (s : SimState G A I) : execCmds sim f agentId [] s = s := by
  cases f <;> rfl

theorem execCmds_disp (sim : EventSimulation G A I) (f : Nat)
    (agentId : String) (a : A) (cs : List (Cmd G A I)) (s : SimState G A I) :
    execCmds sim (f + 1) agentId (Cmd.dispatch a :: cs) s =
      execCmds sim f agentId cs (ctxDispatch sim f a s) := rfl

theorem execCmds_upG (sim : EventSimulation G A I) (f : Nat)
    (agentId : String) (u : G → G) (cs : List (Cmd G A I))
    (s : SimState G A I) :
    execCmds sim (f + 1) agentId (Cmd.updateGlobalState u :: cs) s =
      execCmds sim f agentId cs { s with globalState := u s.globalState } := rfl

theorem execCmds_upI (sim : EventSimulation G A I) (f : Nat)
    (agentId : String) (u : Option I → Option I) (cs : List (Cmd G A I))
    (s : SimState G A I) :
    execCmds sim (f + 1) agentId (Cmd.updateInternalState u :: cs) s =
      execCmds sim f agentId cs
        { s with agentInternalStates := mapSet s.agentInternalStates agentId (u (getInternal s.agentInternalStates agentId)) } :=
  rfl

theorem fanOut_nil (sim : EventSimulation G A I) (f : Nat) (a : A)
    (s : SimState G A I) : fanOut sim f [] a s = (s, FanResult.settled) := by
  cases f <;> rfl

theorem fanOut_zero_cons (sim : EventSimulation G A I)
    (e : String × Agent G A I) (rest : List (String × Agent G A I)) (a : A)
    (s : SimState G A I) :
    fanOut sim 0 (e :: rest) a s = (s, FanResult.fuel) := rfl

theorem fanOut_succ (sim : EventSimulation G A I) (f : Nat) (k : String)
    (g : Agent G A I) (rest : List (String × Agent G A I)) (a : A)
    (s : SimState G A I) :
    fanOut sim (f + 1) ((k, g) :: rest) a s =
      (if (g.onAction a (createContext sim s k)).2 then
        (execCmds sim f k (g.onAction a (createContext sim s k)).1
          { s with trace := s.trace ++ [Event.invoke k a (createContext sim s k)] },
         FanResult.threw)
      else
        fanOut sim f rest a
          (execCmds sim f k (g.onAction a (createContext sim s k)).1
            { s with trace := s.trace ++ [Event.invoke k a (createContext sim s k)] })) :=
  rfl

theorem drainLoop_zero (sim : EventSimulation G A I) (s : SimState G A I) :
    drainLoop sim 0 s = (s, Outcome.fuelExhausted) := rfl

theorem drainLoop_succ (sim : EventSimulation G A I) (f : Nat)
    (s : SimState G A I) :
    drainLoop sim (f + 1) s =
      (match s.actionQueue with
      | [] => ({ s with isProcessing := false }, Outcome.ok)
      | a :: rest =>
        match fanOut sim f sim.agents a { s with actionQueue := rest } with
        | (s2, FanResult.fuel) => (s2, Outcome.fuelExhausted)
        | (s2, FanResult.threw) => (s2, Outcome.handlerError)
        | (s2, FanResult.settled) =>
          match sim.shouldExit (mkExitContext sim
              { s2 with actionCount := s2.actionCount + 1,
                        trace := s2.trace ++ [Event.actionProcessed a] } a) with
          | Except.error _ =>
            ({ s2 with actionCount := s2.actionCount + 1,
                       trace := s2.trace ++ [Event.actionProcessed a] },
             Outcome.exitPredError)
          | Except.ok true =>
            ({ s2 with actionCount := s2.actionCount + 1,
                       trace := s2.trace ++ [Event.actionProcessed a],
                       actionQueue := [], hasExited := true,
                       exitResolved := true, isProcessing := false },
             Outcome.ok)
          | Except.ok false =>
            drainLoop sim f
              { s2 with actionCount := s2.actionCount + 1,
                        trace := s2.trace ++ [Event.actionProcessed a] }) :=
  rfl

theorem processActionQueue_zero (sim : EventSimulation G A I)
    (s : SimState G A I) :
    processActionQueue sim 0 s =
      ({ s with isProcessing := true, trace := s.trace ++ [Event.drainStart] },
       Outcome.fuelExhausted) := rfl

theorem processActionQueue_succ (sim : EventSimulation G A I) (f : Nat)
    (s : SimState G A I) :
    processActionQueue sim (f + 1) s =
      drainLoop sim f
        { s with isProcessing := true,
                 trace := s.trace ++ [Event.drainStart] } := rfl

theorem ctxDispatch_zero (sim : EventSimulation G A I) (a : A)
    (s : SimState G A I) :
    ctxDispatch sim 0 a s =
      { s with dispatchCalls := s.dispatchCalls + 1,
               actionQueue := s.actionQueue ++ [a] } := rfl

theorem ctxDispatch_succ (sim : EventSimulation G A I) (f : Nat) (a : A)
    (s : SimState G A I) :
    ctxDispatch sim (f + 1) a s =
      (if ({ s with dispatchCalls := s.dispatchCalls + 1, actionQueue := s.actionQueue ++ [a] } : SimState G A I).isProcessing then
        { s with dispatchCalls := s.dispatchCalls + 1,
                 actionQueue := s.actionQueue ++ [a] }
      else
        (processActionQueue sim f
          { s with dispatchCalls := s.dispatchCalls + 1,
                   actionQueue := s.actionQueue ++ [a] }).1) := rfl

theorem processedOf_append (t u : List (Event G A I)) :
    processedOf (t ++ u) = processedOf t ++ processedOf u := by
  simp [processedOf, List.filterMap_append]

theorem obsOf_append (t u : List (Event G A I)) :
    obsOf (t ++ u) = obsOf t ++ obsOf u := by
  simp [obsOf, List.filterMap_append]

theorem good_rfl (s : SimState G A I) : Good s s :=
  ⟨⟨fun h => h, Nat.le_refl _⟩, fun _ h => h, fun h => h⟩

theorem good_trans {s t u : SimState G A I} (h1 : Good s t) (h2 : Good t u) :
    Good s u :=
  ⟨⟨fun h => h2.1.1 (h1.1.1 h), Nat.le_trans h1.1.2 h2.1.2⟩,
   fun n h => h2.2.1 n (h1.2.1 n h), fun h => h2.2.2 (h1.2.2 h)⟩

/-- `Good` holds for any step that does not complete a join-barrier: the exit
flag may only be set, the counter may not drop, the queue/dispatch accounting
may only improve, and the processed-trace equation is kept. -/
theorem good_mk {s t : SimState G A I}
    (h1 : s.hasExited = true → t.hasExited = true)
    (h2 : s.actionCount ≤ t.actionCount)
    (h3 : t.actionCount + t.actionQueue.length + s.dispatchCalls ≤
      s.actionCount + s.actionQueue.length + t.dispatchCalls)
    (h4 : s.actionCount = (processedOf s.trace).length →
      t.actionCount = (processedOf t.trace).length) : Good s t :=
  ⟨⟨h1, h2⟩, fun n h => by simp only [KSlack] at h ⊢; omega, h4⟩

/-- While a drain is in progress, a context `dispatch` call only appends the
action to the queue (and bumps the ghost call counter). -/
theorem ctxDispatch_processing (sim : EventSimulation G A I) (f : Nat) (a : A)
    (s : SimState G A I) (h : s.isProcessing = true) :
    ctxDispatch sim f a s =
      { s with dispatchCalls := s.dispatchCalls + 1,
               actionQueue := s.actionQueue ++ [a] } := by
  cases f with
  | zero => rfl
  | succ f => simp [ctxDispatch_succ, h]

/-- While a drain is in progress, a top-level `dispatch` call only appends the
action (or, after exit, drops it) and returns normally. -/
theorem dispatch_processing (sim : EventSimulation G A I) (f : Nat) (a : A)
    (s : SimState G A I) (h : s.isProcessing = true) :
    dispatch sim f a s =
      (if s.hasExited then { s with dispatchCalls := s.dispatchCalls + 1 }
       else { s with dispatchCalls := s.dispatchCalls + 1,
                     actionQueue := s.actionQueue ++ [a] },
       Outcome.ok) := by
  by_cases he : s.hasExited <;> simp [dispatch, he, h]

/-- While a drain is in progress, executing a handler's commands never touches
the processing flag, the ghost trace, the exit state or the counter. -/
theorem execCmds_processing (sim : EventSimulation G A I) :
    ∀ (f : Nat) (agentId : String) (cs : List (Cmd G A I))
      (s : SimState G A I), s.isProcessing = true →
      (execCmds sim f agentId cs s).isProcessing = true ∧
      (execCmds sim f agentId cs s).trace = s.trace ∧
      (execCmds sim f agentId cs s).hasExited = s.hasExited ∧
      (execCmds sim f agentId cs s).exitResolved = s.exitResolved ∧
      (execCmds sim f agentId cs s).actionCount = s.actionCount := by
  intro f
  induction f with
  | zero =>
    intro agentId cs s h
    cases cs <;> simp [execCmds_zero, h]
  | succ f ih =>
    intro agentId cs s h
    cases cs with
    | nil => simp [execCmds_nil, h]
    | cons c cs =>
      cases c with
      | dispatch a =>
        have hstep : execCmds sim (f + 1) agentId (Cmd.dispatch a :: cs) s =
            execCmds sim f agentId cs (ctxDispatch sim f a s) := rfl
        rw [hstep, ctxDispatch_processing sim f a s h]
        have hr := ih agentId cs
          { s with dispatchCalls := s.dispatchCalls + 1,
                   actionQueue := s.actionQueue ++ [a] } (by simpa using h)
        simpa using hr
      | updateGlobalState u =>
        have hstep : execCmds sim (f + 1) agentId
            (Cmd.updateGlobalState u :: cs) s =
            execCmds sim f agentId cs { s with globalState := u s.globalState } :=
          rfl
        rw [hstep]
        have hr := ih agentId cs { s with globalState := u s.globalState }
          (by simpa using h)
        simpa using hr
      | updateInternalState u =>
        have hstep : execCmds sim (f + 1) agentId
            (Cmd.updateInternalState u :: cs) s =
            execCmds sim f agentId cs
              { s with agentInternalStates := mapSet s.agentInternalStates agentId (u (getInternal s.agentInternalStates agentId)) } :=
          rfl
        rw [hstep]
        have hr := ih agentId cs
          { s with agentInternalStates := mapSet s.agentInternalStates agentId (u (getInternal s.agentInternalStates agentId)) }
          (by simpa using h)
        simpa using hr

/-- The fan-out of one action never touches the processing flag, the exit
state or the counter. -/
theorem fanOut_flags (sim : EventSimulation G A I) :
    ∀ (f : Nat) (entries : List (String × Agent G A I)) (a : A)
      (s : SimState G A I), s.isProcessing = true →
      (fanOut sim f entries a s).1.isProcessing = true ∧
      (fanOut sim f entries a s).1.hasExited = s.hasExited ∧
      (fanOut sim f entries a s).1.exitResolved = s.exitResolved ∧
      (fanOut sim f entries a s).1.actionCount = s.actionCount := by
  intro f
  induction f with
  | zero =>
    intro entries a s h
    cases entries <;> simp [fanOut_nil, fanOut_zero_cons, h]
  | succ f ih =>
    intro entries a s h
    cases entries with
    | nil => simp [fanOut_nil, h]
    | cons e rest =>
      obtain ⟨k, g⟩ := e
      have h0 : ({ s with trace := s.trace ++ [Event.invoke k a (createContext sim s k)] } : SimState G A I).isProcessing = true := by
        simpa using h
      have he := execCmds_processing sim f k (g.onAction a (createContext sim s k)).1
        { s with trace := s.trace ++ [Event.invoke k a (createContext sim s k)] } h0
      by_cases htb : (g.onAction a (createContext sim s k)).2 = true
      · have hstep : fanOut sim (f + 1) ((k, g) :: rest) a s =
            (execCmds sim f k (g.onAction a (createContext sim s k)).1
              { s with trace := s.trace ++ [Event.invoke k a (createContext sim s k)] },
             FanResult.threw) := by
          simp [fanOut_succ, htb]
        rw [hstep]
        simp only []
        refine ⟨he.1, ?_, ?_, ?_⟩ <;> simp [he.2.2.1, he.2.2.2.1, he.2.2.2.2]
      · have hstep : fanOut sim (f + 1) ((k, g) :: rest) a s =
            fanOut sim f rest a
              (execCmds sim f k (g.onAction a (createContext sim s k)).1
                { s with trace := s.trace ++ [Event.invoke k a (createContext sim s k)] }) := by
          simp [fanOut_succ, htb]
        rw [hstep]
        have hr := ih rest a
          (execCmds sim f k (g.onAction a (createContext sim s k)).1
            { s with trace := s.trace ++ [Event.invoke k a (createContext sim s k)] })
          he.1
        refine ⟨hr.1, ?_, ?_, ?_⟩ <;>
          simp [hr.2.1, hr.2.2.1, hr.2.2.2, he.2.2.1, he.2.2.2.1, he.2.2.2.2]

/-- A fan-out in which every handler settles invokes exactly the given agents,
once each, in list order. -/
theorem fanOut_settled_obs (sim : EventSimulation G A I) :
    ∀ (f : Nat) (entries : List (String × Agent G A I)) (a : A)
      (s s' : SimState G A I), s.isProcessing = true →
      fanOut sim f entries a s = (s', FanResult.settled) →
      obsOf s'.trace = obsOf s.trace ++ entries.map fun e => ObsE.inv e.1 a := by
  intro f
  induction f with
  | zero =>
    intro entries a s s' h hr
    cases entries with
    | nil =>
      simp only [fanOut_nil, Prod.mk.injEq] at hr
      simp [← hr.1]
    | cons e rest => simp [fanOut_zero_cons] at hr
  | succ f ih =>
    intro entries a s s' h hr
    cases entries with
    | nil =>
      simp only [fanOut_nil, Prod.mk.injEq] at hr
      simp [← hr.1]
    | cons e rest =>
      obtain ⟨k, g⟩ := e
      have h0 : ({ s with trace := s.trace ++ [Event.invoke k a (createContext sim s k)] } : SimState G A I).isProcessing = true := by
        simpa using h
      have he := execCmds_processing sim f k (g.onAction a (createContext sim s k)).1
        { s with trace := s.trace ++ [Event.invoke k a (createContext sim s k)] } h0
      by_cases htb : (g.onAction a (createContext sim s k)).2 = true
      · have hstep : fanOut sim (f + 1) ((k, g) :: rest) a s =
            (execCmds sim f k (g.onAction a (createContext sim s k)).1
              { s with trace := s.trace ++ [Event.invoke k a (createContext sim s k)] },
             FanResult.threw) := by
          simp [fanOut_succ, htb]
        rw [hstep] at hr
        simp at hr
      · have hstep : fanOut sim (f + 1) ((k, g) :: rest) a s =
            fanOut sim f rest a
              (execCmds sim f k (g.onAction a (createContext sim s k)).1
                { s with trace := s.trace ++ [Event.invoke k a (createContext sim s k)] }) := by
          simp [fanOut_succ, htb]
        rw [hstep] at hr
        have hrec := ih rest a _ s' he.1 hr
        rw [hrec, he.2.1]
        simp [obsOf_append, obsOf]

/-- A fan-out in which some handler throws synchronously invokes exactly the
agents up to and including the throwing one; the agents after it are never
invoked for this action. -/
theorem fanOut_threw_obs (sim : EventSimulation G A I) :
    ∀ (f : Nat) (entries : List (String × Agent G A I)) (a : A)
      (s s' : SimState G A I), s.isProcessing = true →
      fanOut sim f entries a s = (s', FanResult.threw) →
      ∃ ford bad rest2, entries = ford ++ bad :: rest2 ∧
        obsOf s'.trace =
          obsOf s.trace ++ (ford.map fun e => ObsE.inv e.1 a) ++ [ObsE.inv bad.1 a] := by
  intro f
  induction f with
  | zero =>
    intro entries a s s' h hr
    cases entries with
    | nil => simp [fanOut_nil] at hr
    | cons e rest => simp [fanOut_zero_cons] at hr
  | succ f ih =>
    intro entries a s s' h hr
    cases entries with
    | nil => simp [fanOut_nil] at hr
    | cons e rest =>
      obtain ⟨k, g⟩ := e
      have h0 : ({ s with trace := s.trace ++ [Event.invoke k a (createContext sim s k)] } : SimState G A I).isProcessing = true := by
        simpa using h
      have he := execCmds_processing sim f k (g.onAction a (createContext sim s k)).1
        { s with trace := s.trace ++ [Event.invoke k a (createContext sim s k)] } h0
      by_cases htb : (g.onAction a (createContext sim s k)).2 = true
      · have hstep : fanOut sim (f + 1) ((k, g) :: rest) a s =
            (execCmds sim f k (g.onAction a (createContext sim s k)).1
              { s with trace := s.trace ++ [Event.invoke k a (createContext sim s k)] },
             FanResult.threw) := by
          simp [fanOut_succ, htb]
        rw [hstep] at hr
        simp only [Prod.mk.injEq] at hr
        refine ⟨[], (k, g), rest, by simp, ?_⟩
        rw [← hr.1, he.2.1]
        simp [obsOf_append, obsOf]
      · have hstep : fanOut sim (f + 1) ((k, g) :: rest) a s =
            fanOut sim f rest a
              (execCmds sim f k (g.onAction a (createContext sim s k)).1
                { s with trace := s.trace ++ [Event.invoke k a (createContext sim s k)] }) := by
          simp [fanOut_succ, htb]
        rw [hstep] at hr
        obtain ⟨ford, bad, rest2, hdec, hobs⟩ := ih rest a _ s' he.1 hr
        refine ⟨(k, g) :: ford, bad, rest2, by simp [hdec], ?_⟩
        rw [hobs, he.2.1]
        simp [obsOf_append, obsOf]

/-- When the drain loop re-raises a handler or `shouldExit` exception, it
returns with `isProcessing` still `true` (no cleanup runs on those paths) and
with the exit state exactly as it was: `hasExited` untouched, `exit()`
unresolved. -/
theorem drainLoop_error (sim : EventSimulation G A I) :
    ∀ (f : Nat) (s s' : SimState G A I) (o : Outcome), s.isProcessing = true →
      drainLoop sim f s = (s', o) →
      o = Outcome.handlerError ∨ o = Outcome.exitPredError →
      s'.isProcessing = true ∧ s'.hasExited = s.hasExited ∧
      s'.exitResolved = s.exitResolved := by
  intro f
  induction f with
  | zero =>
    intro s s' o h hr ho
    simp only [drainLoop_zero, Prod.mk.injEq] at hr
    rcases ho with ho | ho <;> rw [← hr.2] at ho <;> simp at ho
  | succ f ih =>
    intro s s' o h hr ho
    rcases hq : s.actionQueue with _ | ⟨a, rest⟩
    · have hstep : drainLoop sim (f + 1) s =
          ({ s with isProcessing := false }, Outcome.ok) := by
        simp [drainLoop_succ, hq]
      rw [hstep] at hr
      simp only [Prod.mk.injEq] at hr
      rcases ho with ho | ho <;> rw [← hr.2] at ho <;> simp at ho
    · have h1 : ({ s with actionQueue := rest } : SimState G A I).isProcessing = true := by
        simpa using h
      rcases hfo : fanOut sim f sim.agents a { s with actionQueue := rest } with ⟨s2, fr⟩
      have hflags := fanOut_flags sim f sim.agents a { s with actionQueue := rest } h1
      rw [hfo] at hflags
      cases fr with
      | fuel =>
        have hstep : drainLoop sim (f + 1) s = (s2, Outcome.fuelExhausted) := by
          simp [drainLoop_succ, hq, hfo]
        rw [hstep] at hr
        simp only [Prod.mk.injEq] at hr
        rcases ho with ho | ho <;> rw [← hr.2] at ho <;> simp at ho
      | threw =>
        have hstep : drainLoop sim (f + 1) s = (s2, Outcome.handlerError) := by
          simp [drainLoop_succ, hq, hfo]
        rw [hstep] at hr
        simp only [Prod.mk.injEq] at hr
        rw [← hr.1]
        exact ⟨hflags.1, by simpa using hflags.2.1, by simpa using hflags.2.2.1⟩
      | settled =>
        rcases hse : sim.shouldExit (mkExitContext sim
            { s2 with actionCount := s2.actionCount + 1,
                      trace := s2.trace ++ [Event.actionProcessed a] } a)
          with e | b
        · have hstep : drainLoop sim (f + 1) s =
              ({ s2 with actionCount := s2.actionCount + 1,
                         trace := s2.trace ++ [Event.actionProcessed a] },
               Outcome.exitPredError) := by
            simp [drainLoop_succ, hq, hfo, hse]
          rw [hstep] at hr
          simp only [Prod.mk.injEq] at hr
          rw [← hr.1]
          exact ⟨by simpa using hflags.1, by simpa using hflags.2.1,
            by simpa using hflags.2.2.1⟩
        · cases b with
          | true =>
            have hstep : drainLoop sim (f + 1) s =
                ({ s2 with actionCount := s2.actionCount + 1,
                           trace := s2.trace ++ [Event.actionProcessed a],
                           actionQueue := [], hasExited := true,
                           exitResolved := true, isProcessing := false },
                 Outcome.ok) := by
              simp [drainLoop_succ, hq, hfo, hse]
            rw [hstep] at hr
            simp only [Prod.mk.injEq] at hr
            rcases ho with ho | ho <;> rw [← hr.2] at ho <;> simp at ho
          | false =>
            have hstep : drainLoop sim (f + 1) s =
                drainLoop sim f
                  { s2 with actionCount := s2.actionCount + 1,
                            trace := s2.trace ++ [Event.actionProcessed a] } := by
              simp [drainLoop_succ, hq, hfo, hse]
            rw [hstep] at hr
            have hrec := ih _ s' o (by simpa using hflags.1) hr ho
            exact ⟨hrec.1, by rw [hrec.2.1]; simpa using hflags.2.1,
              by rw [hrec.2.2]; simpa using hflags.2.2.1⟩

/-- A successful drain produces, for some list of processed actions taken in
dequeue order, exactly one invocation per registered agent per action — in
registration order — followed by that action's join-barrier, and nothing
else. -/
theorem drainLoop_ok_obs (sim : EventSimulation G A I) :
    ∀ (f : Nat) (s s' : SimState G A I), s.isProcessing = true →
      drainLoop sim f s = (s', Outcome.ok) →
      ∃ acts, obsOf s'.trace = obsOf s.trace ++ expectedObs sim acts := by
  intro f
  induction f with
  | zero =>
    intro s s' h hr
    simp [drainLoop_zero] at hr
  | succ f ih =>
    intro s s' h hr
    rcases hq : s.actionQueue with _ | ⟨a, rest⟩
    · have hstep : drainLoop sim (f + 1) s =
          ({ s with isProcessing := false }, Outcome.ok) := by
        simp [drainLoop_succ, hq]
      rw [hstep] at hr
      simp only [Prod.mk.injEq] at hr
      refine ⟨[], ?_⟩
      rw [← hr.1]
      simp [expectedObs]
    · have h1 : ({ s with actionQueue := rest } : SimState G A I).isProcessing = true := by
        simpa using h
      rcases hfo : fanOut sim f sim.agents a { s with actionQueue := rest } with ⟨s2, fr⟩
      have hflags := fanOut_flags sim f sim.agents a { s with actionQueue := rest } h1
      rw [hfo] at hflags
      cases fr with
      | fuel =>
        have hstep : drainLoop sim (f + 1) s = (s2, Outcome.fuelExhausted) := by
          simp [drainLoop_succ, hq, hfo]
        rw [hstep] at hr
        simp at hr
      | threw =>
        have hstep : drainLoop sim (f + 1) s = (s2, Outcome.handlerError) := by
          simp [drainLoop_succ, hq, hfo]
        rw [hstep] at hr
        simp at hr
      | settled =>
        have hobs2 := fanOut_settled_obs sim f sim.agents a
          { s with actionQueue := rest } s2 h1 hfo
        rcases hse : sim.shouldExit (mkExitContext sim
            { s2 with actionCount := s2.actionCount + 1,
                      trace := s2.trace ++ [Event.actionProcessed a] } a)
          with e | b
        · have hstep : drainLoop sim (f + 1) s =
              ({ s2 with actionCount := s2.actionCount + 1,
                         trace := s2.trace ++ [Event.actionProcessed a] },
               Outcome.exitPredError) := by
            simp [drainLoop_succ, hq, hfo, hse]
          rw [hstep] at hr
          simp at hr
        · cases b with
          | true =>
            have hstep : drainLoop sim (f + 1) s =
                ({ s2 with actionCount := s2.actionCount + 1,
                           trace := s2.trace ++ [Event.actionProcessed a],
                           actionQueue := [], hasExited := true,
                           exitResolved := true, isProcessing := false },
                 Outcome.ok) := by
              simp [drainLoop_succ, hq, hfo, hse]
            rw [hstep] at hr
            simp only [Prod.mk.injEq] at hr
            refine ⟨[a], ?_⟩
            rw [← hr.1]
            simp only [obsOf_append]
            rw [hobs2]
            simp [expectedObs, obsOf, List.append_assoc]
          | false =>
            have hstep : drainLoop sim (f + 1) s =
                drainLoop sim f
                  { s2 with actionCount := s2.actionCount + 1,
                            trace := s2.trace ++ [Event.actionProcessed a] } := by
              simp [drainLoop_succ, hq, hfo, hse]
            rw [hstep] at hr
            obtain ⟨acts, hacts⟩ := ih _ s' (by simpa using hflags.1) hr
            refine ⟨a :: acts, ?_⟩
            rw [hacts]
            simp only [obsOf_append]
            rw [hobs2]
            simp [expectedObs, obsOf, List.append_assoc]

theorem good_push (s : SimState G A I) (a : A) :
    Good s { s with dispatchCalls := s.dispatchCalls + 1,
                    actionQueue := s.actionQueue ++ [a] } := by
  apply good_mk
  · intro h; simpa using h
  · simp
  · simp; omega
  · intro h; simpa using h

/-- Crossing one join-barrier (dequeue, fan out with a `Good` effect,
increment, log) is `Good` as a whole. -/
theorem good_barrier {s s2 : SimState G A I} {a : A} {rest : List A}
    (hq : s.actionQueue = a :: rest)
    (hGF : Good { s with actionQueue := rest } s2) :
    Good s { s2 with actionCount := s2.actionCount + 1,
                     trace := s2.trace ++ [Event.actionProcessed a] } := by
  refine ⟨⟨?_, ?_⟩, ?_, ?_⟩
  · intro h
    have h2 := hGF.1.1 (by simpa using h)
    simpa using h2
  · have h2 := hGF.1.2
    simp only [SimState.actionCount] at h2 ⊢
    simp at h2 ⊢
    omega
  · intro n hK
    have h1 : KSlack (n + 1) { s with actionQueue := rest } := by
      simp only [KSlack, hq] at hK ⊢
      simp at hK ⊢
      omega
    have h2 := hGF.2.1 (n + 1) h1
    simp only [KSlack] at h2 ⊢
    simp at h2 ⊢
    omega
  · intro hT
    have h1 : TInv ({ s with actionQueue := rest } : SimState G A I) := by
      simpa [TInv] using hT
    have h2 := hGF.2.2 h1
    simp only [TInv] at h2 ⊢
    simp [processedOf_append, processedOf] at h2 ⊢
    omega

/-- Every engine function evolves the state `Good`-ly: the exit flag is never
unset, the counter never drops, the queue/dispatch accounting is preserved,
and the counter/trace equation is preserved. -/
theorem goodAll (sim : EventSimulation G A I) :
    ∀ f : Nat,
      (∀ (agentId : String) (cs : List (Cmd G A I)) (s : SimState G A I),
        Good s (execCmds sim f agentId cs s)) ∧
      (∀ (entries : List (String × Agent G A I)) (a : A) (s : SimState G A I),
        Good s (fanOut sim f entries a s).1) ∧
      (∀ s : SimState G A I, Good s (drainLoop sim f s).1) ∧
      (∀ s : SimState G A I, Good s (processActionQueue sim f s).1) ∧
      (∀ (a : A) (s : SimState G A I), Good s (ctxDispatch sim f a s)) := by
  intro f
  induction f with
  | zero =>
    refine ⟨?_, ?_, ?_, ?_, ?_⟩
    · intro agentId cs s
      cases cs <;> exact good_rfl s
    · intro entries a s
      cases entries <;> exact good_rfl s
    · intro s
      exact good_rfl s
    · intro s
      have hstep : (processActionQueue sim 0 s).1 =
          { s with isProcessing := true,
                   trace := s.trace ++ [Event.drainStart] } := rfl
      rw [hstep]
      apply good_mk
      · intro h; simpa using h
      · simp
      · simp
      · intro h; simpa [processedOf_append, processedOf] using h
    · intro a s
      exact good_push s a
  | succ f ih =>
    obtain ⟨ihE, ihF, ihL, ihP, ihC⟩ := ih
    refine ⟨?_, ?_, ?_, ?_, ?_⟩
    · intro agentId cs s
      cases cs with
      | nil => exact good_rfl s
      | cons c cs =>
        cases c with
        | dispatch a => exact good_trans (ihC a s) (ihE agentId cs _)
        | updateGlobalState u =>
          refine good_trans ?_ (ihE agentId cs _)
          apply good_mk
          · intro h; simpa using h
          · simp
          · simp
          · intro h; simpa using h
        | updateInternalState u =>
          refine good_trans ?_ (ihE agentId cs _)
          apply good_mk
          · intro h; simpa using h
          · simp
          · simp
          · intro h; simpa using h
    · intro entries a s
      cases entries with
      | nil => exact good_rfl s
      | cons e rest =>
        obtain ⟨k, g⟩ := e
        have hGinv : Good s ({ s with trace := s.trace ++ [Event.invoke k a (createContext sim s k)] } : SimState G A I) := by
          apply good_mk
          · intro h; simpa using h
          · simp
          · simp
          · intro h; simpa [processedOf_append, processedOf] using h
        by_cases htb : (g.onAction a (createContext sim s k)).2 = true
        · have hstep : (fanOut sim (f + 1) ((k, g) :: rest) a s).1 =
              execCmds sim f k (g.onAction a (createContext sim s k)).1
                { s with trace := s.trace ++ [Event.invoke k a (createContext sim s k)] } := by
            simp [fanOut_succ, htb]
          rw [hstep]
          exact good_trans hGinv (ihE k _ _)
        · have hstep : (fanOut sim (f + 1) ((k, g) :: rest) a s).1 =
              (fanOut sim f rest a
                (execCmds sim f k (g.onAction a (createContext sim s k)).1
                  { s with trace := s.trace ++ [Event.invoke k a (createContext sim s k)] })).1 := by
            simp [fanOut_succ, htb]
          rw [hstep]
          exact good_trans hGinv (good_trans (ihE k _ _) (ihF rest a _))
    · intro s
      rcases hq : s.actionQueue with _ | ⟨a, rest⟩
      · have hstep : (drainLoop sim (f + 1) s).1 = { s with isProcessing := false } := by
          simp [drainLoop_succ, hq]
        rw [hstep]
        apply good_mk
        · intro h; simpa using h
        · simp
        · simp
        · intro h; simpa using h
      · have hGdeq : Good s ({ s with actionQueue := rest } : SimState G A I) := by
          apply good_mk
          · intro h; simpa using h
          · simp
          · simp [hq]
          · intro h; simpa using h
        rcases hfo : fanOut sim f sim.agents a { s with actionQueue := rest } with ⟨s2, fr⟩
        have hGF : Good ({ s with actionQueue := rest } : SimState G A I) s2 := by
          have hx := ihF sim.agents a { s with actionQueue := rest }
          rwa [hfo] at hx
        cases fr with
        | fuel =>
          have hstep : (drainLoop sim (f + 1) s).1 = s2 := by
            simp [drainLoop_succ, hq, hfo]
          rw [hstep]
          exact good_trans hGdeq hGF
        | threw =>
          have hstep : (drainLoop sim (f + 1) s).1 = s2 := by
            simp [drainLoop_succ, hq, hfo]
          rw [hstep]
          exact good_trans hGdeq hGF
        | settled =>
          have hGbar := good_barrier hq hGF
          rcases hse : sim.shouldExit (mkExitContext sim
              { s2 with actionCount := s2.actionCount + 1,
                        trace := s2.trace ++ [Event.actionProcessed a] } a)
            with e | b
          · have hstep : (drainLoop sim (f + 1) s).1 =
                { s2 with actionCount := s2.actionCount + 1,
                          trace := s2.trace ++ [Event.actionProcessed a] } := by
              simp [drainLoop_succ, hq, hfo, hse]
            rw [hstep]
            exact hGbar
          · cases b with
            | true =>
              have hstep : (drainLoop sim (f + 1) s).1 =
                  { s2 with actionCount := s2.actionCount + 1,
                            trace := s2.trace ++ [Event.actionProcessed a],
                            actionQueue := [], hasExited := true,
                            exitResolved := true, isProcessing := false } := by
                simp [drainLoop_succ, hq, hfo, hse]
              rw [hstep]
              refine good_trans hGbar ?_
              apply good_mk
              · intro h; simp
              · simp
              · simp
              · intro h; simpa using h
            | false =>
              have hstep : (drainLoop sim (f + 1) s).1 =
                  (drainLoop sim f
                    { s2 with actionCount := s2.actionCount + 1,
                              trace := s2.trace ++ [Event.actionProcessed a] }).1 := by
                simp [drainLoop_succ, hq, hfo, hse]
              rw [hstep]
              exact good_trans hGbar (ihL _)
    · intro s
      have hstep : (processActionQueue sim (f + 1) s).1 =
          (drainLoop sim f
            { s with isProcessing := true,
                     trace := s.trace ++ [Event.drainStart] }).1 := rfl
      rw [hstep]
      refine good_trans ?_ (ihL _)
      apply good_mk
      · intro h; simpa using h
      · simp
      · simp
      · intro h; simpa [processedOf_append, processedOf] using h
    · intro a s
      by_cases hp : s.isProcessing = true
      · have hstep : ctxDispatch sim (f + 1) a s =
            { s with dispatchCalls := s.dispatchCalls + 1,
                     actionQueue := s.actionQueue ++ [a] } := by
          simp [ctxDispatch_succ, hp]
        rw [hstep]
        exact good_push s a
      · have hstep : ctxDispatch sim (f + 1) a s =
            (processActionQueue sim f
              { s with dispatchCalls := s.dispatchCalls + 1,
                       actionQueue := s.actionQueue ++ [a] }).1 := by
          simp [ctxDispatch_succ, hp]
        rw [hstep]
        exact good_trans (good_push s a) (ihP _)

/-- A top-level `dispatch` call evolves the state `Good`-ly. -/
theorem good_dispatch (sim : EventSimulation G A I) (f : Nat) (a : A)
    (s : SimState G A I) : Good s (dispatch sim f a s).1 := by
  by_cases he : s.hasExited = true
  · have hstep : (dispatch sim f a s).1 =
        { s with dispatchCalls := s.dispatchCalls + 1 } := by
      simp [dispatch, he]
    rw [hstep]
    apply good_mk
    · intro h; simpa using h
    · simp
    · simp
    · intro h; simpa using h
  · by_cases hp : s.isProcessing = true
    · have hstep : (dispatch sim f a s).1 =
          { s with dispatchCalls := s.dispatchCalls + 1,
                   actionQueue := s.actionQueue ++ [a] } := by
        simp [dispatch, he, hp]
      rw [hstep]
      exact good_push s a
    · cases f with
      | zero =>
        have hstep : (dispatch sim 0 a s).1 =
            { s with dispatchCalls := s.dispatchCalls + 1,
                     actionQueue := s.actionQueue ++ [a] } := by
          simp [dispatch, he, hp]
        rw [hstep]
        exact good_push s a
      | succ f =>
        have hstep : (dispatch sim (f + 1) a s).1 =
            (processActionQueue sim f
              { s with dispatchCalls := s.dispatchCalls + 1,
                       actionQueue := s.actionQueue ++ [a] }).1 := by
          simp [dispatch, he, hp]
        rw [hstep]
        exact good_trans (good_push s a) ((goodAll sim f).2.2.2.1 _)

theorem mapSet_fresh (m : List (String × β)) (k : String) (v : β)
    (h : ∀ p ∈ m, p.1 ≠ k) : mapSet m k v = m ++ [(k, v)] := by
  induction m with
  | nil => rfl
  | cons p rest ih =>
    obtain ⟨k', v'⟩ := p
    have hk : k' ≠ k := h (k', v') (List.mem_cons_self _ _)
    simp only [mapSet, if_neg hk, List.cons_append, List.cons.injEq, true_and]
    exact ih fun q hq => h q (List.mem_cons_of_mem _ hq)

theorem foldl_mapSet_fresh :
    ∀ (gs : List (Agent G A I)) (acc : List (String × Agent G A I)),
      (∀ g ∈ gs, ∀ p ∈ acc, p.1 ≠ g.id) → (gs.map Agent.id).Nodup →
      gs.foldl (fun m g => mapSet m g.id g) acc =
        acc ++ gs.map fun g => (g.id, g) := by
  intro gs
  induction gs with
  | nil => intro acc _ _; simp
  | cons g gs ih =>
    intro acc hfresh hnd
    have hset : mapSet acc g.id g = acc ++ [(g.id, g)] :=
      mapSet_fresh acc g.id g fun p hp =>
        hfresh g (List.mem_cons_self _ _) p hp
    have hnd' := hnd
    rw [List.map_cons, List.nodup_cons] at hnd'
    have hstep : (g :: gs).foldl (fun m g => mapSet m g.id g) acc =
        gs.foldl (fun m g => mapSet m g.id g) (acc ++ [(g.id, g)]) := by
      simp [List.foldl_cons, hset]
    rw [hstep, ih (acc ++ [(g.id, g)]) ?_ hnd'.2]
    · simp
    · intro g' hg' p hp
      rcases List.mem_append.1 hp with hp | hp
      · exact hfresh g' (List.mem_cons_of_mem _ hg') p hp
      · have hpe : p = (g.id, g) := by simpa using hp
        rw [hpe]
        intro hcon
        have hcon2 : g.id = g'.id := hcon
        exact hnd'.1 (by rw [hcon2]; exact List.mem_map_of_mem Agent.id hg')

/-- With pairwise distinct agent ids, the registered agent `Map` holds exactly
the configured agents, in the configured order. -/
theorem createSimulation_agents (cfg : SimulationConfig G A I)
    (h : (cfg.agents.map Agent.id).Nodup) :
    (createSimulation cfg).1.agents = cfg.agents.map fun g => (g.id, g) := by
  have hx := foldl_mapSet_fresh cfg.agents [] (by intro g _ p hp; simp at hp) h
  simpa [createSimulation] using hx

/-- The queue-accounting and counter/trace invariants hold in every reachable
state. -/
theorem reachable_inv (cfg : SimulationConfig G A I) (s : SimState G A I)
    (h : Reachable cfg s) : KSlack 0 s ∧ TInv s := by
  induction h with
  | init =>
    constructor
    · simp [KSlack, createSimulation]
    · simp [TInv, createSimulation, processedOf]
  | @stepDispatch f a t hs ih =>
    have hg := good_dispatch (createSimulation cfg).1 f a t
    exact ⟨hg.2.1 0 ih.1, hg.2.2 ih.2⟩
  | @stepCtxDispatch f a t hs ih =>
    have hg := (goodAll (createSimulation cfg).1 f).2.2.2.2 a t
    exact ⟨hg.2.1 0 ih.1, hg.2.2 ih.2⟩

/-- Lift of `drainLoop_ok_obs` to a successful top-level `dispatch` from an
idle engine. -/
theorem dispatch_ok_obs (sim : EventSimulation G A I) (f : Nat) (a : A)
    (s s' : SimState G A I) (hp : s.isProcessing = false)
    (he : s.hasExited = false) (hr : dispatch sim f a s = (s', Outcome.ok)) :
    ∃ acts, obsOf s'.trace = obsOf s.trace ++ expectedObs sim acts := by
  cases f with
  | zero =>
    simp [dispatch, he, hp] at hr
  | succ f =>
    have hstep : dispatch sim (f + 1) a s =
        processActionQueue sim f
          { s with dispatchCalls := s.dispatchCalls + 1,
                   actionQueue := s.actionQueue ++ [a] } := by
      simp [dispatch, he, hp]
    rw [hstep] at hr
    cases f with
    | zero => simp [processActionQueue_zero] at hr
    | succ f =>
      have hstep2 : processActionQueue sim (f + 1)
          { s with dispatchCalls := s.dispatchCalls + 1,
                   actionQueue := s.actionQueue ++ [a] } =
          drainLoop sim f
            { s with dispatchCalls := s.dispatchCalls + 1,
                     actionQueue := s.actionQueue ++ [a],
                     isProcessing := true,
                     trace := s.trace ++ [Event.drainStart] } := by
        simp [processActionQueue_succ]
      rw [hstep2] at hr
      obtain ⟨acts, hacts⟩ := drainLoop_ok_obs sim f _ s' (by simp) hr
      refine ⟨acts, ?_⟩
      rw [hacts]
      simp [obsOf_append, obsOf]

/-- After any error return of the drain loop started by `processActionQueue`,
`isProcessing` is left `true` and the exit state is untouched. -/
theorem processActionQueue_error (sim : EventSimulation G A I) (f : Nat)
    (s s' : SimState G A I) (o : Outcome)
    (hr : processActionQueue sim f s = (s', o))
    (ho : o = Outcome.handlerError ∨ o = Outcome.exitPredError) :
    s'.isProcessing = true ∧ s'.hasExited = s.hasExited ∧
    s'.exitResolved = s.exitResolved := by
  cases f with
  | zero =>
    simp only [processActionQueue_zero, Prod.mk.injEq] at hr
    rcases ho with ho | ho <;> rw [← hr.2] at ho <;> simp at ho
  | succ f =>
    have hstep : processActionQueue sim (f + 1) s =
        drainLoop sim f
          { s with isProcessing := true,
                   trace := s.trace ++ [Event.drainStart] } := by
      simp [processActionQueue_succ]
    rw [hstep] at hr
    have hx := drainLoop_error sim f _ s' o (by simp) hr ho
    exact ⟨hx.1, by simpa using hx.2.1, by simpa using hx.2.2⟩

/-- Once `isProcessing` is stuck at `true`, any sequence of top-level and
context dispatch calls only appends to the queue: the flag stays `true`, no
join-barrier completes, the counter is frozen, no trace event is added and
the exit promise is never resolved. -/
theorem applyOps_stuck (sim : EventSimulation G A I) :
    ∀ (ops : List (Op A)) (s : SimState G A I), s.isProcessing = true →
      (applyOps sim ops s).isProcessing = true ∧
      (applyOps sim ops s).actionCount = s.actionCount ∧
      (applyOps sim ops s).exitResolved = s.exitResolved ∧
      (applyOps sim ops s).trace = s.trace := by
  intro ops
  induction ops with
  | nil => intro s h; exact ⟨h, rfl, rfl, rfl⟩
  | cons op rest ih =>
    intro s h
    cases op with
    | disp f a =>
      have hstep : applyOps sim (Op.disp f a :: rest) s =
          applyOps sim rest (dispatch sim f a s).1 := rfl
      rw [hstep, dispatch_processing sim f a s h]
      by_cases he : s.hasExited = true
      · have hr := ih { s with dispatchCalls := s.dispatchCalls + 1 } (by simpa using h)
        simp only [he, if_pos] at *
        exact ⟨hr.1, by simpa using hr.2.1, by simpa using hr.2.2.1,
          by simpa using hr.2.2.2⟩
      · have hr := ih
          { s with dispatchCalls := s.dispatchCalls + 1,
                   actionQueue := s.actionQueue ++ [a] } (by simpa using h)
        simp only [he, if_neg, if_false, Bool.false_eq_true] at *
        exact ⟨hr.1, by simpa using hr.2.1, by simpa using hr.2.2.1,
          by simpa using hr.2.2.2⟩
    | cdisp f a =>
      have hstep : applyOps sim (Op.cdisp f a :: rest) s =
          applyOps sim rest (ctxDispatch sim f a s) := rfl
      rw [hstep, ctxDispatch_processing sim f a s h]
      have hr := ih
        { s with dispatchCalls := s.dispatchCalls + 1,
                 actionQueue := s.actionQueue ++ [a] } (by simpa using h)
      exact ⟨hr.1, by simpa using hr.2.1, by simpa using hr.2.2.1,
        by simpa using hr.2.2.2⟩

/-! ### Claim theorems -/

/-- C1: the claim that every agent processing a given action sees the same
`allAgents` snapshot, captured before any handler for that action has run, is
violated by the code.  In the two-agent scenario where agent `a` synchronously
replaces its internal state by `1`, agent `a` is handed the list
`[a ↦ 0, b ↦ 0]` but agent `b` — whose context is only created after `a`'s
synchronous handler already ran — is handed `[a ↦ 1, b ↦ 0]`: the two
snapshots for the same action differ, and `b`'s does not equal the pre-action
state of `a`. -/
theorem c1_allAgents_not_pre_action_snapshot :
    allAgentsSeen c1run.1.trace =
      [[⟨"a", some 0⟩, ⟨"b", some 0⟩], [⟨"a", some 1⟩, ⟨"b", some 0⟩]] ∧
    ([⟨"a", some 0⟩, ⟨"b", some 0⟩] : List (AgentSnapshot Nat)) ≠
      [⟨"a", some 1⟩, ⟨"b", some 0⟩] ∧
    c1run.2 = Outcome.ok := by
  decide

/-- C2 counterexample: in the exited state reached by one dispatch,
a top-level `dispatch` is a silent no-op on all engine state, but the
context's `dispatch` — which skips the `hasExited` check — enqueues, restarts
the drain loop, and processes the action: the global state and the action
count both change. -/
theorem c2_ctxDispatch_after_exit_not_noop :
    c2exited.hasExited = true ∧
    (dispatch c2sim 10 7 c2exited).1.globalState = 5 ∧
    (dispatch c2sim 10 7 c2exited).1.actionCount = 1 ∧
    (ctxDispatch c2sim 10 7 c2exited).globalState = 12 ∧
    (ctxDispatch c2sim 10 7 c2exited).actionCount = 2 := by
  decide

/-- C2 (amended): as long as `hasExited` is false, a context `dispatch` has
exactly the same effect on engine state as the top-level `dispatch` (both
enqueue and start the drain loop when it is not running).  After exit the two
differ: the context `dispatch` performs no `hasExited` check, so it still
enqueues and processes (see the counterexample). -/
theorem c2_ctxDispatch_equiv_before_exit :
    ∀ (G' A' I' : Type) (sim : EventSimulation G' A' I') (f : Nat) (a : A')
      (s : SimState G' A' I'), s.hasExited = false →
      ctxDispatch sim f a s = (dispatch sim f a s).1 := by
  intro G' A' I' sim f a s h
  by_cases hp : s.isProcessing = true <;> cases f <;>
    simp [dispatch, ctxDispatch_zero, ctxDispatch_succ, h, hp]

/-- C2 witness: the equivalence instantiated at the fresh (non-exited) C2
state. -/
theorem c2_ctxDispatch_equiv_before_exit_witness :
    (createSimulation c2cfg).2.hasExited = false ∧
    ctxDispatch c2sim 3 5 (createSimulation c2cfg).2 =
      (dispatch c2sim 3 5 (createSimulation c2cfg).2).1 :=
  ⟨by decide,
   c2_ctxDispatch_equiv_before_exit Int Int Unit c2sim 3 5
     (createSimulation c2cfg).2 (by decide)⟩

/-- C3 counterexample: with agents `a`, `b` (throws synchronously), `c`, the
dispatch that processes the action rejects with the handler failure, but the
engine did not wait for all agents' handler invocations: agent `c`'s handler
is never invoked for the action at all (and the action never completes the
join-barrier). -/
theorem c3_sibling_never_invoked :
    c3run.2 = Outcome.handlerError ∧
    obsOf c3run.1.trace = [ObsE.inv "a" 0, ObsE.inv "b" 0] ∧
    ObsE.inv "c" (0 : Int) ∉ obsOf c3run.1.trace ∧
    getActionCount c3run.1 = 0 := by
  decide

/-- C3 (amended): when a handler throws synchronously during the fan-out of
an action, the exception propagates immediately — exactly the agents up to
and including the throwing one were invoked, agents after it in registration
order are never invoked for that action — and the failure is re-raised out of
the `dispatch` call that caused the processing (shown on the concrete
scenario: the dispatch returns the handler error with the join-barrier never
completed). -/
theorem c3_throw_skips_later_agents :
    (∀ (G' A' I' : Type) (sim : EventSimulation G' A' I') (f : Nat)
       (entries : List (String × Agent G' A' I')) (a : A')
       (s s' : SimState G' A' I'), s.isProcessing = true →
       fanOut sim f entries a s = (s', FanResult.threw) →
       ∃ (ford : List (String × Agent G' A' I')) (bad : String × Agent G' A' I')
         (rest2 : List (String × Agent G' A' I')),
         entries = ford ++ bad :: rest2 ∧
         obsOf s'.trace = obsOf s.trace ++
           (ford.map fun e => ObsE.inv e.1 a) ++ [ObsE.inv bad.1 a]) ∧
    c3run.2 = Outcome.handlerError ∧
    getActionCount c3run.1 = 0 ∧
    c3run.1.isProcessing = true := by
  refine ⟨?_, by decide, by decide, by decide⟩
  intro G' A' I' sim f entries a s s' h hr
  exact fanOut_threw_obs sim f entries a s s' h hr

/-- C3 witness: the fan-out decomposition instantiated on the C3 registry
from a mid-drain state. -/
theorem c3_throw_skips_later_agents_witness :
    c3fanState.isProcessing = true ∧
    (∃ (ford : List (String × Agent Int Int Unit))
       (bad : String × Agent Int Int Unit)
       (rest2 : List (String × Agent Int Int Unit)),
      c3sim.agents = ford ++ bad :: rest2 ∧
      obsOf (fanOut c3sim 5 c3sim.agents 0 c3fanState).1.trace =
        obsOf c3fanState.trace ++
          (ford.map fun e => ObsE.inv e.1 0) ++ [ObsE.inv bad.1 0]) :=
  ⟨by decide,
   c3_throw_skips_later_agents.1 Int Int Unit c3sim 5 c3sim.agents 0 c3fanState
     (fanOut c3sim 5 c3sim.agents 0 c3fanState).1 (by decide) (by decide)⟩

/-- C4: dispatching `{INCREMENT, amount: 5}`, then `8`, then `1` against
initial global state `0` with exit at `actionCount >= 2` ends with
`getGlobalState() = 13` and `getActionCount() = 2`; the third dispatch is
dropped after exit and changes nothing but the ghost call counter. -/
theorem c4_increment_scenario :
    getGlobalState c4s3 = 13 ∧
    getActionCount c4s3 = 2 ∧
    hasSimulationExited c4s2 = true ∧
    c4s3 = { c4s2 with dispatchCalls := c4s2.dispatchCalls + 1 } := by
  decide

set_option maxHeartbeats 4000000 in
theorem c5final :
    c5run = ({ c5t3 with isProcessing := false }, Outcome.ok) := by
  rfl

/-- C5: dispatching `START` once yields final global state `2`; every agent
observes `START`, then `INCREMENT`, then `DOUBLE`, in that order; and the
whole cascade runs in one single (non-nested) drain-loop activation. -/
theorem c5_cascade_scenario :
    getGlobalState c5run.1 = 2 ∧
    c5run.2 = Outcome.ok ∧
    seenBy c5run.1.trace "A" = [TAct.START, TAct.INCREMENT 1, TAct.DOUBLE] ∧
    seenBy c5run.1.trace "B" = [TAct.START, TAct.INCREMENT 1, TAct.DOUBLE] ∧
    seenBy c5run.1.trace "C" = [TAct.START, TAct.INCREMENT 1, TAct.DOUBLE] ∧
    drainStartCount c5run.1.trace = 1 := by
  rw [c5final]
  decide

/-- C6: in every reachable state, `getActionCount()` equals the number of
completed join-barriers (so it is incremented exactly once per such action
and never on an enqueue) and is at most the number of dispatch calls made so
far; moreover every further dispatch step keeps `hasExited` once true, never
decreases the counter, and — while a drain is in progress — a dispatch
(top-level or context) leaves the counter unchanged. -/
theorem c6_exit_and_counter_invariants :
    ∀ (G' A' I' : Type) (cfg : SimulationConfig G' A' I')
      (s : SimState G' A' I'), Reachable cfg s →
      (getActionCount s = (processedOf s.trace).length ∧
       getActionCount s ≤ s.dispatchCalls) ∧
      (∀ (f : Nat) (a : A'),
        (s.hasExited = true →
          (dispatch (createSimulation cfg).1 f a s).1.hasExited = true ∧
          (ctxDispatch (createSimulation cfg).1 f a s).hasExited = true) ∧
        (getActionCount s ≤
          getActionCount (dispatch (createSimulation cfg).1 f a s).1 ∧
         getActionCount s ≤
          getActionCount (ctxDispatch (createSimulation cfg).1 f a s)) ∧
        (s.isProcessing = true →
          getActionCount (dispatch (createSimulation cfg).1 f a s).1 =
            getActionCount s ∧
          getActionCount (ctxDispatch (createSimulation cfg).1 f a s) =
            getActionCount s)) := by
  intro G' A' I' cfg s hreach
  have hinv := reachable_inv cfg s hreach
  refine ⟨⟨hinv.2, ?_⟩, ?_⟩
  · have hk := hinv.1
    simp only [KSlack] at hk
    simp only [getActionCount]
    omega
  · intro f a
    refine ⟨?_, ?_, ?_⟩
    · intro he
      exact ⟨(good_dispatch _ f a s).1.1 he,
        ((goodAll _ f).2.2.2.2 a s).1.1 he⟩
    · exact ⟨(good_dispatch _ f a s).1.2, ((goodAll _ f).2.2.2.2 a s).1.2⟩
    · intro hp
      constructor
      · rw [dispatch_processing _ f a s hp]
        by_cases he : s.hasExited = true <;> simp [he, getActionCount]
      · rw [ctxDispatch_processing _ f a s hp]
        simp [getActionCount]

/-- C6 witness: the invariants instantiated at the reachable state after one
dispatch into the C6 scenario. -/
theorem c6_exit_and_counter_invariants_witness :
    getActionCount (dispatch (createSimulation c6cfg).1 10 5
        (createSimulation c6cfg).2).1 =
      (processedOf (dispatch (createSimulation c6cfg).1 10 5
        (createSimulation c6cfg).2).1.trace).length ∧
    getActionCount (dispatch (createSimulation c6cfg).1 10 5
        (createSimulation c6cfg).2).1 ≤
      (dispatch (createSimulation c6cfg).1 10 5
        (createSimulation c6cfg).2).1.dispatchCalls :=
  ⟨(c6_exit_and_counter_invariants Int Int Unit c6cfg _
      (Reachable.stepDispatch 10 5 Reachable.init)).1.1,
   (c6_exit_and_counter_invariants Int Int Unit c6cfg _
      (Reachable.stepDispatch 10 5 Reachable.init)).1.2⟩

/-- C7: if `shouldExit` throws while evaluating the exit condition, the error
propagates out of the `dispatch` call that triggered the processing step, the
loop does not swallow it, `hasExited` stays as it was (false), no exit event
clears the queue, and the awaitable from `exit()` is not resolved — shown in
general for any drain ending in the exit-predicate error, and concretely on
the C7 scenario where the enqueued follow-up action `7` is still pending. -/
theorem c7_shouldExit_throw_propagates :
    (∀ (G' A' I' : Type) (sim : EventSimulation G' A' I') (f : Nat)
       (s s' : SimState G' A' I') (o : Outcome),
       processActionQueue sim f s = (s', o) → o = Outcome.exitPredError →
       s'.hasExited = s.hasExited ∧ s'.exitResolved = s.exitResolved) ∧
    (c7run.2 = Outcome.exitPredError ∧
     c7run.1.hasExited = false ∧
     c7run.1.exitResolved = false ∧
     c7run.1.actionQueue = [7] ∧
     getActionCount c7run.1 = 1 ∧
     c7run.1.isProcessing = true) := by
  constructor
  · intro G' A' I' sim f s s' o hr ho
    have hx := processActionQueue_error sim f s s' o hr (Or.inr ho)
    exact ⟨hx.2.1, hx.2.2⟩
  · exact ⟨by decide, by decide, by decide, by decide, by decide, by decide⟩

/-- C7 witness: the general part instantiated on the C7 drain. -/
theorem c7_shouldExit_throw_propagates_witness :
    (processActionQueue c7sim 9 c7queued).1.hasExited = c7queued.hasExited ∧
    (processActionQueue c7sim 9 c7queued).1.exitResolved =
      c7queued.exitResolved :=
  c7_shouldExit_throw_propagates.1 Int Int Unit c7sim 9 c7queued
    (processActionQueue c7sim 9 c7queued).1 Outcome.exitPredError
    (by decide) rfl

/-- C8: with unique agent ids the registered fan-out order is exactly the
order the agents were supplied in `config.agents`; and every successful
dispatch-triggered drain invokes, for some list of actions processed in
dequeue order, every registered agent exactly once per processed action, in
registration order, with the join-barrier after each action. -/
theorem c8_every_agent_exactly_once :
    (∀ (G' A' I' : Type) (cfg : SimulationConfig G' A' I'),
       (cfg.agents.map Agent.id).Nodup →
       (createSimulation cfg).1.agents = cfg.agents.map fun g => (g.id, g)) ∧
    (∀ (G' A' I' : Type) (sim : EventSimulation G' A' I') (f : Nat) (a : A')
       (s s' : SimState G' A' I'),
       s.isProcessing = false → s.hasExited = false →
       dispatch sim f a s = (s', Outcome.ok) →
       ∃ acts, obsOf s'.trace = obsOf s.trace ++ expectedObs sim acts) :=
  ⟨fun _ _ _ cfg h => createSimulation_agents cfg h,
   fun _ _ _ sim f a s s' hp he hr => dispatch_ok_obs sim f a s s' hp he hr⟩

/-- C8 witness: both parts instantiated on the two-agent C8 scenario. -/
theorem c8_every_agent_exactly_once_witness :
    (createSimulation c8cfg).1.agents = c8cfg.agents.map (fun g => (g.id, g)) ∧
    ∃ acts, obsOf (dispatch c8sim 10 42 (createSimulation c8cfg).2).1.trace =
      obsOf (createSimulation c8cfg).2.trace ++ expectedObs c8sim acts :=
  ⟨c8_every_agent_exactly_once.1 Int Int Unit c8cfg (by decide),
   c8_every_agent_exactly_once.2 Int Int Unit c8sim 10 42
     (createSimulation c8cfg).2
     (dispatch c8sim 10 42 (createSimulation c8cfg).2).1
     (by decide) (by decide) (by decide)⟩

/-- C9: a dispatch call made while a drain is in progress — context or
top-level (when not exited) — only appends the action and returns; in every
case it starts no second drain: the processing flag, the trace (in particular
its count of drain-loop activations) and the action counter are untouched. -/
theorem c9_no_overlapping_drain :
    ∀ (G' A' I' : Type) (sim : EventSimulation G' A' I') (f : Nat) (a : A')
      (s : SimState G' A' I'), s.isProcessing = true →
      ctxDispatch sim f a s =
        { s with dispatchCalls := s.dispatchCalls + 1,
                 actionQueue := s.actionQueue ++ [a] } ∧
      (s.hasExited = false →
        dispatch sim f a s =
          ({ s with dispatchCalls := s.dispatchCalls + 1,
                    actionQueue := s.actionQueue ++ [a] }, Outcome.ok)) ∧
      (dispatch sim f a s).1.trace = s.trace ∧
      (dispatch sim f a s).1.isProcessing = true ∧
      (dispatch sim f a s).1.actionCount = s.actionCount ∧
      drainStartCount (dispatch sim f a s).1.trace = drainStartCount s.trace ∧
      drainStartCount (ctxDispatch sim f a s).trace = drainStartCount s.trace := by
  intro G' A' I' sim f a s h
  have hc := ctxDispatch_processing sim f a s h
  have hd := dispatch_processing sim f a s h
  refine ⟨hc, ?_, ?_, ?_, ?_, ?_, ?_⟩
  · intro he
    rw [hd]
    simp [he]
  · rw [hd]
    by_cases he : s.hasExited = true <;> simp [he]
  · rw [hd]
    by_cases he : s.hasExited = true <;> simp [he, h]
  · rw [hd]
    by_cases he : s.hasExited = true <;> simp [he]
  · rw [hd]
    by_cases he : s.hasExited = true <;> simp [he]
  · rw [hc]

/-- C9 witness: the append-only behaviour at a concrete mid-drain state. -/
theorem c9_no_overlapping_drain_witness :
    c9state.isProcessing = true ∧
    ctxDispatch c9sim 5 7 c9state =
      { c9state with dispatchCalls := c9state.dispatchCalls + 1,
                     actionQueue := c9state.actionQueue ++ [7] } ∧
    dispatch c9sim 5 7 c9state =
      ({ c9state with dispatchCalls := c9state.dispatchCalls + 1,
                      actionQueue := c9state.actionQueue ++ [7] },
       Outcome.ok) :=
  ⟨by decide,
   (c9_no_overlapping_drain Int Int Unit c9sim 5 7 c9state (by decide)).1,
   (c9_no_overlapping_drain Int Int Unit c9sim 5 7 c9state (by decide)).2.1
     (by decide)⟩

/-- C10: when `shouldExit` throws during a drain, the loop exits with the
error without ever resetting `isProcessing` (shown in general, and concretely
on the C10 scenario); from such a state every further sequence of top-level
or context dispatch calls only appends to the queue — the flag stays `true`,
no action is ever processed again, `getActionCount()` is frozen, no trace
event is added and the exit promise is never resolved: the engine is
permanently stuck. -/
theorem c10_engine_permanently_stuck :
    (∀ (G' A' I' : Type) (sim : EventSimulation G' A' I') (f : Nat)
       (s s' : SimState G' A' I') (o : Outcome),
       processActionQueue sim f s = (s', o) → o = Outcome.exitPredError →
       s'.isProcessing = true) ∧
    (∀ (G' A' I' : Type) (sim : EventSimulation G' A' I') (ops : List (Op A'))
       (s : SimState G' A' I'), s.isProcessing = true →
       (applyOps sim ops s).isProcessing = true ∧
       (applyOps sim ops s).actionCount = s.actionCount ∧
       (applyOps sim ops s).exitResolved = s.exitResolved ∧
       (applyOps sim ops s).trace = s.trace) ∧
    (c10run.2 = Outcome.exitPredError ∧
     c10run.1.isProcessing = true ∧
     c10run.1.hasExited = false ∧
     c10run.1.exitResolved = false) := by
  refine ⟨?_, ?_, by decide, by decide, by decide, by decide⟩
  · intro G' A' I' sim f s s' o hr ho
    exact (processActionQueue_error sim f s s' o hr (Or.inr ho)).1
  · intro G' A' I' sim ops s h
    exact applyOps_stuck sim ops s h

/-- C10 witness: both general parts instantiated on the C10 scenario — the
erroring drain is stuck, and further dispatches from the stuck state change
no observable engine state. -/
theorem c10_engine_permanently_stuck_witness :
    (processActionQueue c10sim 9 c10queued).1.isProcessing = true ∧
    (applyOps c10sim [Op.disp 5 1, Op.cdisp 5 2] c10run.1).actionCount =
      c10run.1.actionCount ∧
    (applyOps c10sim [Op.disp 5 1, Op.cdisp 5 2] c10run.1).exitResolved =
      c10run.1.exitResolved :=
  ⟨c10_engine_permanently_stuck.1 Int Int Unit c10sim 9 c10queued
     (processActionQueue c10sim 9 c10queued).1 Outcome.exitPredError
     (by decide) rfl,
   (c10_engine_permanently_stuck.2.1 Int Int Unit c10sim
     [Op.disp 5 1, Op.cdisp 5 2] c10run.1 (by decide)).2.1,
   (c10_engine_permanently_stuck.2.1 Int Int Unit c10sim
     [Op.disp 5 1, Op.cdisp 5 2] c10run.1 (by decide)).2.2.1⟩

end Simullm
